import Mathlib

/-!
Verification of the fsapi SAP gateway core: the metadata-driven request
validation / transformation / response-filtering pipeline
(`src/app/api/v1/sap.py`, `src/app/api/routes.py`), the token verification
dependencies (`src/app/dependencies_v1.py`), the authorization check
(`src/app/services/auth_service.py`) and the sliding-window rate limiter
(`src/app/services/rate_limit_service.py`).

JSON values are modelled by the inductive `Json`; Python dicts are modelled
as association lists in insertion order with unique keys (a Python dict can
never hold two entries with the same key), numbers at integer resolution.
Python exceptions raised on malformed trees (AttributeError, TypeError,
the unbound `missing_fields` NameError of `validate_table_parameters`) are
modelled with `Except String`.
-/

/-- A JSON-like value as handled by the Python code: None, strings,
numbers (integer resolution), booleans, lists and objects.  Objects are
association lists in insertion order. -/
inductive Json where
  | null : Json
  | str : String → Json
  | num : Int → Json
  | bool : Bool → Json
  | arr : List Json → Json
  | obj : List (String × Json) → Json
deriving Repr, BEq

/-- Dict lookup: the value at `key`, `none` when absent (first occurrence
wins, which coincides with Python dict semantics on duplicate-free lists). -/
def lookup : List (String × Json) → String → Option Json
  | [], _ => none
  | (k, v) :: rest, key => if k = key then some v else lookup rest key

/-- Python truthiness of a value, negated (`not v`): `None`, `""`, `0`,
`False` and empty containers are falsy, everything else is truthy. -/
def falsy : Json → Bool
  | .null => true
  | .str s => s = ""
  | .num n => n = 0
  | .bool b => !b
  | .arr l => l.isEmpty
  | .obj l => l.isEmpty

/-- Python `s.split('.')`, split at every dot keeping empty pieces
(defined by structural recursion on the character list so that concrete
instances compute inside the kernel). -/
def splitOnDotAux : List Char → List Char → List String
  | [], cur => [String.mk cur.reverse]
  | c :: rest, cur =>
    if c = '.' then String.mk cur.reverse :: splitOnDotAux rest []
    else splitOnDotAux rest (c :: cur)

/-- Python `s.split('.')` on a string. -/
def splitOnDot (s : String) : List String :=
  splitOnDotAux s.data []

/-- Whether the first character list starts the second (helper for
Python substring containment). -/
def isPrefixChars : List Char → List Char → Bool
  | [], _ => true
  | _ :: _, [] => false
  | c :: cs, d :: ds => c = d && isPrefixChars cs ds

/-- Python substring containment `needle in haystack` on character lists
(the empty needle is contained in everything, as in Python). -/
def isSubstrChars (needle : List Char) : List Char → Bool
  | [] => isPrefixChars needle []
  | c :: rest => isPrefixChars needle (c :: rest) || isSubstrChars needle rest

/-- Table metadata entry: in the metadata JSON a table parameter is
`{"fields": {field-name: field-spec, ...}}`; `fields` is that inner dict
(the code reads it as `table_meta["fields"]`). -/
structure TableMeta where
  fields : List (String × Json)
deriving Repr

/-- Function metadata document (externally supplied configuration):
`input_parameters`, `table_parameters` and `output_parameters` dicts,
accessed by the code as `metadata.get(..., {})`. -/
structure Metadata where
  input_parameters : List (String × Json) := []
  table_parameters : List (String × TableMeta) := []
  output_parameters : List (String × Json) := []
deriving Repr

/-- Request parameter tree `{"input": ..., "tables": {...}}`.  The pydantic
validator on `SAPFunctionRequest.parameters` coerces the body to a dict, so
`parameters.get("input", {})` and `parameters.get("tables", {})` are
modelled as the two members directly; `tables` is modelled as a mapping, as
typed in `routes.CallFunctionRequest` (`Dict[str, Dict[str, Any]]`). -/
structure Params where
  input : Json := Json.obj []
  tables : List (String × Json) := []
deriving Repr

namespace SapV1

/-- From `src/app/api/v1/sap.py::extract_nested_value`: walk the dotted
path one key per segment (`for key in keys.split('.'): if key in data:
data = data[key] else: return None`).  On a dict, `key in data` selects
the member or returns `None` when absent.  On a string, `key in data` is
substring containment and a SUCCESSFUL test is followed by `data[key]`,
which raises TypeError (string subscript); a failed test returns `None`.
On a list, `key in data` is element equality against the string key,
again raising TypeError on `data[key]` when it succeeds.  On `None`,
numbers and booleans, `in` itself raises TypeError. -/
def extract_nested_value (data : Json) (keys : String) :
    Except String (Option Json) :=
  go data (splitOnDot keys)
where
  go : Json → List String → Except String (Option Json)
    | d, [] => .ok (some d)
    | .obj entries, k :: rest =>
      (match lookup entries k with
        | some v => go v rest
        | none => .ok none)
    | .str s, k :: _ =>
      if isSubstrChars k.data s.data then
        .error "TypeError: string indices must be integers"
      else .ok none
    | .arr l, k :: _ =>
      if l.any (fun elem => match elem with | .str s => s = k | _ => false) then
        .error "TypeError: list indices must be integers"
      else .ok none
    | _, _ :: _ => .error "TypeError: argument of non-container type is not iterable"

/-- Truthiness of `value.get("required", False)` on a field-spec dict. -/
def requiredFlag (entries : List (String × Json)) : Bool :=
  match lookup entries "required" with
  | some v => !(falsy v)
  | none => false

/-- From `src/app/api/v1/sap.py::extract_required_fields`: collect dotted
paths of required fields; a dict node whose `required` value is truthy is a
leaf requirement, any other dict node is descended into, non-dict values
are skipped. -/
def extract_required_fields : List (String × Json) → String → List String
  | [], _ => []
  | (key, value) :: rest, parent_key =>
    let current_key := if parent_key = "" then key else parent_key ++ "." ++ key
    (match value with
      | .obj entries =>
        if requiredFlag entries then [current_key]
        else extract_required_fields entries current_key
      | _ => []) ++ extract_required_fields rest parent_key

/-- The list comprehension of `validate_input_parameters`
(`[field for field in required_inputs if not extract_nested_value(...)]`):
fields are tested in order, a field whose resolution is absent or
Python-falsy is collected, and a TypeError raised while resolving a field
aborts the whole comprehension. -/
def collect_missing (parameters : Params) : List String → Except String (List String)
  | [] => .ok []
  | field :: rest => do
    let v? ← extract_nested_value parameters.input field
    let ms ← collect_missing parameters rest
    match v? with
    | none => .ok (field :: ms)
    | some v => if falsy v then .ok (field :: ms) else .ok ms

/-- From `src/app/api/v1/sap.py::validate_input_parameters`: the missing
required dotted paths, or the propagated TypeError of a resolution on a
malformed tree. -/
def missing_inputs (parameters : Params) (md : Metadata) :
    Except String (List String) :=
  collect_missing parameters (extract_required_fields md.input_parameters "")

/-- From `src/app/api/v1/sap.py::validate_input_parameters`: raises a 400
naming every missing required input path in one message; a TypeError from
the scan propagates instead (a 500, never the enumerating 400). -/
def validate_input_parameters (parameters : Params) (md : Metadata) :
    Except String Unit := do
  let missing ← missing_inputs parameters md
  if missing.isEmpty then .ok ()
  else .error ("Missing required input parameters: " ++ String.intercalate ", " missing)

/-- The required field names of one table:
`[fn for fn, fm in table_meta["fields"].items() if fm.get("required", False)]`;
a non-dict field spec makes `fm.get` raise AttributeError. -/
def required_table_fields : List (String × Json) → Except String (List String)
  | [] => .ok []
  | (field_name, field_meta) :: rest =>
    match field_meta with
    | .obj e => do
      let r ← required_table_fields rest
      if requiredFlag e then .ok (field_name :: r) else .ok r
    | _ => .error "AttributeError: get on non-dict field spec"

/-- Required fields absent from any row of a multi-row table
(`for row in fields: missing_fields.extend([f for f in required_fields if f not in row])`);
a non-dict row makes the membership test raise. -/
def missing_fields_in_rows (required_fields : List String) :
    List Json → Except String (List String)
  | [] => .ok []
  | row :: rest =>
    match row with
    | .obj e => do
      let ms ← missing_fields_in_rows required_fields rest
      .ok ((required_fields.filter fun f => (lookup e f).isNone) ++ ms)
    | _ => .error "TypeError: field membership on non-dict row"

/-- The fate of the `missing_fields` binding in an iteration of
`validate_table_parameters` whose `fields` value is neither a dict nor a
list: reuse the binding left by a previous iteration, or raise NameError
when none exists. -/
def stale_or_name_error : Option (List String) → Except String (List String)
  | some prev => .ok prev
  | none => .error "NameError: missing_fields unbound"

/-- From `src/app/api/v1/sap.py::validate_table_parameters`: iterate the
declared tables in metadata order and raise at the FIRST problem found:
a declared table absent from the request, a present table whose `fields`
value is falsy, or (per table) the list of required fields missing from
the single row / any of the rows.  The source's `missing_fields` variable
is function-local and LOOP-CARRIED: when `fields` is neither a dict nor a
list, the branch assigning it is skipped, so the binding left by a
previous iteration (necessarily empty, or that iteration would have
raised) is reused and the table passes silently; only when no previous
iteration bound it does `if missing_fields:` raise NameError.  The
carried binding is threaded as `missing_prev`, initially `none`. -/
def validate_table_parameters (parameters : Params) (md : Metadata) :
    Except String Unit :=
  go md.table_parameters parameters.tables none
where
  go : List (String × TableMeta) → List (String × Json) → Option (List String) →
      Except String Unit
    | [], _, _ => .ok ()
    | (table_name, table_meta) :: rest, request_tables, missing_prev =>
      match lookup request_tables table_name with
      | none => .error ("Missing required table parameter: " ++ table_name)
      | some tval =>
        match tval with
        | .obj e =>
          let fields := (lookup e "fields").getD (Json.obj [])
          if falsy fields then
            .error ("Table '" ++ table_name ++ "' has no fields")
          else do
            let required_fields ← required_table_fields table_meta.fields
            let missing_fields ←
              (match fields with
                | .obj fe =>
                  .ok (required_fields.filter fun f => (lookup fe f).isNone)
                | .arr rows => missing_fields_in_rows required_fields rows
                | _ => stale_or_name_error missing_prev)
            if missing_fields.isEmpty then
              go rest request_tables (some missing_fields)
            else .error ("Missing required fields in table '" ++ table_name ++ "': "
              ++ String.intercalate ", " missing_fields)
        | _ => .error "AttributeError: get on non-dict table value"

/-- Input-parameter half of `src/app/api/v1/sap.py::prepare_sap_data`:
copy each request input declared in the metadata, special-casing the
reserved field name `I_DATE` with a truthy value: a string splitting on
`.` into exactly three parts `D.M.Y` is re-emitted as `Y ++ M ++ D`, any
other part count passes through unchanged; `split` on a truthy non-string
raises AttributeError. -/
def prepare_input (input_meta : List (String × Json)) :
    List (String × Json) → Except String (List (String × Json))
  | [] => .ok []
  | (key, val) :: rest =>
    if (lookup input_meta key).isSome then
      if key = "I_DATE" && !(falsy val) then
        match val with
        | .str s => do
          let v := match splitOnDot s with
            | [d, m, y] => Json.str (y ++ m ++ d)
            | _ => val
          let r ← prepare_input input_meta rest
          .ok ((key, v) :: r)
        | _ => .error "AttributeError: split on non-string date value"
      else do
        let r ← prepare_input input_meta rest
        .ok ((key, val) :: r)
    else prepare_input input_meta rest

/-- Table-parameter half of `prepare_sap_data`: for each declared table
present in the request, take its `fields` value, wrap a single dict as a
one-element list and pass anything else through unchanged. -/
def prepare_tables : List (String × TableMeta) → List (String × Json) →
    Except String (List (String × Json))
  | [], _ => .ok []
  | (table_name, _) :: rest, request_tables =>
    match lookup request_tables table_name with
    | none => prepare_tables rest request_tables
    | some tval =>
      match tval with
      | .obj e => do
        let fields := (lookup e "fields").getD (Json.obj [])
        let entry := match fields with
          | .obj fe => Json.arr [Json.obj fe]
          | other => other
        let r ← prepare_tables rest request_tables
        .ok ((table_name, entry) :: r)
      | _ => .error "AttributeError: get on non-dict table value"

/-- Python `{**a, **b}`: keys of `a` keep their position with values
overridden by `b` where both define the key, then the keys only in `b`. -/
def dictMerge (a b : List (String × Json)) : List (String × Json) :=
  (a.map fun kv => (kv.1, (lookup b kv.1).getD kv.2))
    ++ b.filter fun kv => (lookup a kv.1).isNone

/-- The items of `parameters.get("input", {})`; a non-dict value makes
`.items()` raise AttributeError. -/
def inputItems : Json → Except String (List (String × Json))
  | .obj e => .ok e
  | _ => .error "AttributeError: items on non-dict input"

/-- From `src/app/api/v1/sap.py::prepare_sap_data`: the flat outgoing
argument dict `{**input_parameters, **table_parameters}` (the
`isinstance(parameters, dict)` guard always passes here because `Params`
models a dict). -/
def prepare_sap_data (parameters : Params) (md : Metadata) :
    Except String (List (String × Json)) := do
  let items ← inputItems parameters.input
  let input_parameters ← prepare_input md.input_parameters items
  let table_parameters ← prepare_tables md.table_parameters parameters.tables
  .ok (dictMerge input_parameters table_parameters)

/-- One projected row of a table output:
`{sub_key: entry.get(sub_key, "") for sub_key in value.keys()}`; a
non-dict entry raises AttributeError unless there are no declared
sub-keys (then the comprehension never calls `entry.get`). -/
def projectRow (subkeys : List String) : Json → Except String Json
  | .obj e => .ok (.obj (subkeys.map fun k => (k, (lookup e k).getD (.str ""))))
  | _ =>
    if subkeys.isEmpty then .ok (.obj [])
    else .error "AttributeError: get on non-dict row"

/-- All projected rows of a table output, first failure wins. -/
def projectRows (subkeys : List String) : List Json → Except String (List Json)
  | [] => .ok []
  | e :: rest => do
    let r ← projectRow subkeys e
    let rs ← projectRows subkeys rest
    .ok (r :: rs)

/-- Loop body of `src/app/api/v1/sap.py::filter_sap_response` for a key
present in the raw response: a dict schema value with a list raw value is
projected row-wise onto the declared sub-keys
(`isinstance(value, dict) and isinstance(raw_response[key], list)`), any
other combination copies the raw value verbatim. -/
def filterValue (value rawv : Json) : Except String Json :=
  match value, rawv with
  | .obj sub, .arr l => do
    let rows ← projectRows (sub.map Prod.fst) l
    .ok (.arr rows)
  | _, _ => .ok rawv

/-- From `src/app/api/v1/sap.py::filter_sap_response`: allow-list
projection of the raw response onto the declared output keys.  A declared
key ABSENT from the raw response is skipped (`if key in raw_response`); a
present key is handled by `filterValue`. -/
def filter_sap_response (raw_response : List (String × Json)) :
    List (String × Json) → Except String (List (String × Json))
  | [] => .ok []
  | (key, value) :: rest =>
    match lookup raw_response key with
    | none => filter_sap_response raw_response rest
    | some rawv => do
      let v ← filterValue value rawv
      let r ← filter_sap_response raw_response rest
      .ok ((key, v) :: r)

end SapV1

namespace Routes

/-- Core of the loop body of `src/app/api/routes.py::filter_sap_response`,
on the declared schema value paired with `raw_response.get(key)`: a dict
schema value with a present list raw value is projected row-wise; any
other present value passes through (`raw_response.get(key, "")` on a
present key is the raw value); an absent key defaults to the empty
string. -/
def filterValueCore (value : Json) : Option Json → Except String Json
  | some (.arr l) =>
    match value with
    | .obj sub => do
      let rows ← SapV1.projectRows (sub.map Prod.fst) l
      .ok (.arr rows)
    | _ => .ok (.arr l)
  | some w => .ok w
  | none => .ok (.str "")

/-- Loop body of `src/app/api/routes.py::filter_sap_response` for one
declared key. -/
def filterValue (raw_response : List (String × Json)) (key : String)
    (value : Json) : Except String Json :=
  filterValueCore value (lookup raw_response key)

/-- From `src/app/api/routes.py::filter_sap_response` (legacy endpoint):
same allow-list projection, but EVERY declared key appears in the
result. -/
def filter_sap_response (raw_response : List (String × Json)) :
    List (String × Json) → Except String (List (String × Json))
  | [] => .ok []
  | (key, value) :: rest => do
    let v ← filterValue raw_response key value
    let r ← filter_sap_response raw_response rest
    .ok ((key, v) :: r)

end Routes

namespace RateLimiter

/-- Rate-limit info dict built by `RateLimiter.is_allowed`. -/
structure RateInfo where
  allowed : Bool
  limit : Nat
  remaining : Nat
  reset_time : Int
  retry_after : Int
deriving Repr, DecidableEq

/-- The purge loop of `src/app/services/rate_limit_service.py::RateLimiter.is_allowed`:
`while requests and requests[0] <= current_time - window_seconds: requests.popleft()`.
Timestamps are modelled at integer resolution. -/
def purge_old (requests : List Int) (current_time window_seconds : Int) : List Int :=
  requests.dropWhile fun t => t ≤ current_time - window_seconds

/-- From `src/app/services/rate_limit_service.py::RateLimiter.is_allowed`:
purge, then deny with `retry_after = max(oldest + window - now, 1)` when
the purged bucket already holds `max_requests` timestamps, otherwise
append `now` and allow.  Returns (allowed, info, new bucket contents). -/
def is_allowed (requests : List Int) (current_time : Int) (max_requests : Nat)
    (window_seconds : Int) : Bool × RateInfo × List Int :=
  let reqs := purge_old requests current_time window_seconds
  if max_requests ≤ reqs.length then
    let oldest_request := reqs.headD current_time
    let retry_after := oldest_request + window_seconds - current_time
    (false,
      ⟨false, max_requests, 0, oldest_request + window_seconds, max retry_after 1⟩,
      reqs)
  else
    (true,
      ⟨true, max_requests, max_requests - (reqs.length + 1),
        current_time + window_seconds, 0⟩,
      reqs ++ [current_time])

end RateLimiter

namespace DependenciesV1

/-- The claims of a JWT payload after a successful `jwt.decode` (signature
and expiry already verified): the optional `sub` claim and the optional
`type` claim (`payload.get("type", "client")` defaults it to "client"). -/
structure Payload where
  sub : Option String := none
  type : Option String := none
deriving Repr, DecidableEq

/-- `app.schemas.token.TokenData`: both ids optional, no further
validation (pydantic accepts the empty string). -/
structure TokenData where
  client_id : Option String := none
  employee_id : Option String := none
deriving Repr, DecidableEq

/-- The error codes raised by the token dependencies on a structurally
decoded token (JWTError branches for bad signature or expiry are upstream
of the behavior modelled here). -/
inductive AuthError where
  | INVALID_CLIENT_TOKEN : AuthError
  | INVALID_USER_TOKEN : AuthError
  | USER_NOT_FOUND : AuthError
  | INVALID_TOKEN_STRUCTURE : AuthError
deriving Repr, DecidableEq

/-- From `src/app/dependencies_v1.py::verify_client_token`: reject when
`sub` is None or the `type` claim (default "client") is "user", else
return `TokenData(client_id=sub)`. -/
def verify_client_token (payload : Payload) : Except AuthError TokenData :=
  match payload.sub with
  | none => .error .INVALID_CLIENT_TOKEN
  | some client_id =>
    if payload.type.getD "client" = "user" then .error .INVALID_CLIENT_TOKEN
    else .ok ⟨some client_id, none⟩

/-- From `src/app/dependencies_v1.py::verify_user_token`: reject when
`sub` is None or the `type` claim is not "user"; then delegate to the
external employee existence check. -/
def verify_user_token (validate_employee_exists : String → Bool)
    (payload : Payload) : Except AuthError TokenData :=
  match payload.sub with
  | none => .error .INVALID_USER_TOKEN
  | some employee_id =>
    if payload.type.getD "client" ≠ "user" then .error .INVALID_USER_TOKEN
    else if !(validate_employee_exists employee_id) then .error .USER_NOT_FOUND
    else .ok ⟨none, some employee_id⟩

/-- From `src/app/dependencies_v1.py::verify_any_token`: reject only when
`sub` is None; a "user" token additionally passes the employee existence
check, any other type is treated as a client token. -/
def verify_any_token (validate_employee_exists : String → Bool)
    (payload : Payload) : Except AuthError TokenData :=
  match payload.sub with
  | none => .error .INVALID_TOKEN_STRUCTURE
  | some subject =>
    if payload.type.getD "client" = "user" then
      if !(validate_employee_exists subject) then .error .USER_NOT_FOUND
      else .ok ⟨none, some subject⟩
    else .ok ⟨some subject, none⟩

end DependenciesV1

namespace AuthService

/-- The hard-coded transitional bypass list of
`src/app/services/auth_service.py::AuthService.is_function_authorized`. -/
def bypass_functions : List String := ["ZMAST_CUSTOMER", "Z_GET_MATERIALS", "ZMAST_BOM"]

/-- From `AuthService.get_authorized_functions`: the function names of the
database rows `(FUNCTION_NAME, FUNCTION_DETAIL)`, dropping rows whose name
is falsy (`if row[0]` filters SQL NULL and the empty string). -/
def get_authorized_function_names (rows : List (Option String × String)) : List String :=
  rows.filterMap fun row =>
    match row.1 with
    | some s => if s = "" then none else some s
    | none => none

/-- From `AuthService.is_function_authorized`: the fixed bypass list is
authorized unconditionally, anything else by membership in the identity's
authorized-function names (the database lookup is modelled by `rows`). -/
def is_function_authorized (rows : List (Option String × String))
    (function_name : String) : Bool :=
  if function_name ∈ bypass_functions then true
  else decide (function_name ∈ get_authorized_function_names rows)

end AuthService

/-! ### General helper lemmas -/

theorem exceptBind_eq_ok {α β : Type} {x : Except String α}
    {f : α → Except String β} {b : β} :
    (x >>= f) = .ok b ↔ ∃ a, x = .ok a ∧ f a = .ok b := by
  cases x <;> simp [Bind.bind, Except.bind]

theorem lookup_cons_self (k : String) (v : Json) (l : List (String × Json)) :
    lookup ((k, v) :: l) k = some v := by
  simp [lookup]

theorem lookup_cons_of_ne {k' k : String} (v : Json) (l : List (String × Json))
    (h : k' ≠ k) : lookup ((k', v) :: l) k = lookup l k := by
  simp [lookup, h]

theorem lookup_eq_none_iff (l : List (String × Json)) (k : String) :
    lookup l k = none ↔ k ∉ l.map Prod.fst := by
  induction l with
  | nil => simp [lookup]
  | cons kv rest ih =>
    obtain ⟨k', v⟩ := kv
    by_cases h : k' = k
    · subst h
      simp [lookup]
    · simp [lookup, h, ih, Ne.symm h]

theorem lookup_isSome_iff (l : List (String × Json)) (k : String) :
    (lookup l k).isSome = true ↔ k ∈ l.map Prod.fst := by
  constructor
  · intro h
    by_contra hmem
    rw [← lookup_eq_none_iff] at hmem
    simp [hmem] at h
  · intro h
    cases hl : lookup l k with
    | none => rw [lookup_eq_none_iff] at hl; exact absurd h hl
    | some v => simp

/-! ### Claim C1 -/

theorem collect_missing_eq_nil_iff (parameters : Params) (l : List String) :
    SapV1.collect_missing parameters l = .ok [] ↔
      ∀ field ∈ l, ∃ v,
        SapV1.extract_nested_value parameters.input field = .ok (some v)
          ∧ falsy v = false := by
  induction l with
  | nil => simp [SapV1.collect_missing]
  | cons field rest ih =>
    constructor
    · intro h
      rw [SapV1.collect_missing] at h
      rw [exceptBind_eq_ok] at h
      obtain ⟨v?, hv, h2⟩ := h
      rw [exceptBind_eq_ok] at h2
      obtain ⟨ms, hms, h3⟩ := h2
      obtain ⟨v, hveq, hfv, hmseq⟩ :
          ∃ v, v? = some v ∧ falsy v = false ∧ ms = [] := by
        cases v? with
        | none => simp at h3
        | some v =>
          cases hfv : falsy v with
          | true => simp [hfv] at h3
          | false =>
            simp [hfv] at h3
            exact ⟨v, rfl, hfv, h3⟩
      subst hveq
      subst hmseq
      intro f hf
      rcases List.mem_cons.mp hf with rfl | hf'
      · exact ⟨v, hv, hfv⟩
      · exact ih.mp hms f hf'
    · intro h
      obtain ⟨v, hv, hfv⟩ := h field (List.mem_cons_self ..)
      have hrest := ih.mpr fun f hf => h f (List.mem_cons_of_mem _ hf)
      rw [SapV1.collect_missing, hv, hrest]
      simp [Bind.bind, Except.bind, hfv]

theorem collect_missing_mem (parameters : Params) (field : String)
    (hbad : SapV1.extract_nested_value parameters.input field = .ok none
      ∨ ∃ v, SapV1.extract_nested_value parameters.input field = .ok (some v)
          ∧ falsy v = true) :
    ∀ (l ms : List String), SapV1.collect_missing parameters l = .ok ms →
      field ∈ l → field ∈ ms := by
  intro l
  induction l with
  | nil => intro ms _ hf; cases hf
  | cons f₀ rest ih =>
    intro ms h hf
    rw [SapV1.collect_missing] at h
    rw [exceptBind_eq_ok] at h
    obtain ⟨v?, hv, h2⟩ := h
    rw [exceptBind_eq_ok] at h2
    obtain ⟨ms', hms, h3⟩ := h2
    rcases List.mem_cons.mp hf with rfl | hf'
    · rcases hbad with hb | ⟨v, hb, hfv⟩
      · rw [hv] at hb
        injection hb with hb
        subst hb
        simp at h3
        subst h3
        exact List.mem_cons_self ..
      · rw [hv] at hb
        injection hb with hb
        subst hb
        simp [hfv] at h3
        subst h3
        exact List.mem_cons_self ..
    · have hmem := ih ms' hms hf'
      cases v? with
      | none =>
        simp at h3
        subst h3
        exact List.mem_cons_of_mem _ hmem
      | some v =>
        cases hfv : falsy v with
        | true =>
          simp [hfv] at h3
          subst h3
          exact List.mem_cons_of_mem _ hmem
        | false =>
          simp [hfv] at h3
          subst h3
          exact hmem

/-- Claim C1, counterexample: the single required path `A` resolves to the
number `0`, which is neither None nor the empty string, yet
`validate_input_parameters` reports it missing — the source tests Python
truthiness (`if not extract_nested_value(...)`), so a required numeric `0`
IS reported as missing, refuting the claim as stated. -/
theorem claim_C1_counterexample :
    SapV1.extract_required_fields [("A", Json.obj [("required", Json.bool true)])] "" = ["A"]
    ∧ SapV1.extract_nested_value (Json.obj [("A", Json.num 0)]) "A" = .ok (some (Json.num 0))
    ∧ SapV1.missing_inputs ⟨Json.obj [("A", Json.num 0)], []⟩
        ⟨[("A", Json.obj [("required", Json.bool true)])], [], []⟩ = .ok ["A"] := by
  refine ⟨?_, rfl, ?_⟩
  · simp only [SapV1.extract_required_fields, SapV1.requiredFlag]
    decide
  · simp only [SapV1.missing_inputs, SapV1.extract_required_fields, SapV1.requiredFlag]
    rfl

/-- Claim C1 (amended): the missing-required-inputs check completes with
no missing field iff every required dotted path of the schema resolves in
the input tree — without the TypeError the source raises on a malformed
intermediate node — to a Python-TRUTHY value: besides None and the empty
string, also `0`, `False` and empty containers count as missing. -/
theorem claim_C1_amended (parameters : Params) (md : Metadata) :
    SapV1.missing_inputs parameters md = .ok [] ↔
      ∀ field ∈ SapV1.extract_required_fields md.input_parameters "",
        ∃ v, SapV1.extract_nested_value parameters.input field = .ok (some v)
          ∧ falsy v = false := by
  unfold SapV1.missing_inputs
  exact collect_missing_eq_nil_iff parameters _

/-! ### Claims C3 and C4: the date-field rule of the request transformer -/

/-- Claim C3: in `prepare_sap_data`, a non-empty `I_DATE` input value
splitting on `.` into exactly three components `D.M.Y` is emitted as the
concatenation `Y ++ M ++ D`; any part count other than three passes the
value through unchanged. -/
theorem claim_C3 (s : String) (input_meta : List (String × Json))
    (hmeta : (lookup input_meta "I_DATE").isSome = true) (hne : s ≠ "") :
    (∀ d m y, splitOnDot s = [d, m, y] →
      SapV1.prepare_sap_data ⟨Json.obj [("I_DATE", Json.str s)], []⟩
          ⟨input_meta, [], []⟩
        = .ok [("I_DATE", Json.str (y ++ m ++ d))])
    ∧ ((splitOnDot s).length ≠ 3 →
      SapV1.prepare_sap_data ⟨Json.obj [("I_DATE", Json.str s)], []⟩
          ⟨input_meta, [], []⟩
        = .ok [("I_DATE", Json.str s)]) := by
  have hbase : ∀ v : Json,
      SapV1.prepare_input input_meta [("I_DATE", Json.str s)] = .ok [("I_DATE", v)] →
      SapV1.prepare_sap_data ⟨Json.obj [("I_DATE", Json.str s)], []⟩
          ⟨input_meta, [], []⟩
        = .ok [("I_DATE", v)] := by
    intro v hv
    simp [SapV1.prepare_sap_data, SapV1.inputItems, SapV1.prepare_tables, hv,
      Bind.bind, Except.bind, SapV1.dictMerge, lookup]
  constructor
  · intro d m y hsp
    apply hbase
    simp [SapV1.prepare_input, hmeta, hne, hsp, falsy, Bind.bind, Except.bind]
  · intro hlen
    apply hbase
    rcases hsp : splitOnDot s with _ | ⟨a, _ | ⟨b, _ | ⟨c, _ | ⟨e, tail⟩⟩⟩⟩
    · simp [SapV1.prepare_input, hmeta, hne, hsp, falsy, Bind.bind, Except.bind]
    · simp [SapV1.prepare_input, hmeta, hne, hsp, falsy, Bind.bind, Except.bind]
    · simp [SapV1.prepare_input, hmeta, hne, hsp, falsy, Bind.bind, Except.bind]
    · exact absurd (by rw [hsp]; rfl : (splitOnDot s).length = 3) hlen
    · simp [SapV1.prepare_input, hmeta, hne, hsp, falsy, Bind.bind, Except.bind]

/-- Claim C3, witness: `15.03.2024` (`D.M.Y`) is emitted as `20240315`. -/
theorem claim_C3_witness :
    SapV1.prepare_sap_data ⟨Json.obj [("I_DATE", Json.str "15.03.2024")], []⟩
        ⟨[("I_DATE", Json.obj [])], [], []⟩
      = .ok [("I_DATE", Json.str "20240315")] := by
  have h := (claim_C3 "15.03.2024" [("I_DATE", Json.obj [])] (by decide)
    (by decide)).1 "15" "03" "2024" (by decide)
  exact h

/-- Claim C4, counterexample: the claim says input `"2024.03.15"` yields
`"20240315"`; the source re-joins the three dot-separated parts in
reversed order, so `"2024.03.15"` actually yields `"15032024"`. -/
theorem claim_C4_counterexample :
    SapV1.prepare_sap_data ⟨Json.obj [("I_DATE", Json.str "2024.03.15")], []⟩
        ⟨[("I_DATE", Json.obj [])], [], []⟩
      = .ok [("I_DATE", Json.str "15032024")]
    ∧ "15032024" ≠ "20240315" := ⟨rfl, by decide⟩

/-- Claim C4 (amended): under the date-field rule, `"2024.03.15"` is
transformed to `"15032024"` (parts re-joined in reversed order; the
`D.M.Y` input `"15.03.2024"` is the one that yields `"20240315"`), and
`"15/03/2024"` (wrong separator) passes through unchanged. -/
theorem claim_C4_amended :
    SapV1.prepare_sap_data ⟨Json.obj [("I_DATE", Json.str "2024.03.15")], []⟩
        ⟨[("I_DATE", Json.obj [])], [], []⟩
      = .ok [("I_DATE", Json.str "15032024")]
    ∧ SapV1.prepare_sap_data ⟨Json.obj [("I_DATE", Json.str "15.03.2024")], []⟩
        ⟨[("I_DATE", Json.obj [])], [], []⟩
      = .ok [("I_DATE", Json.str "20240315")]
    ∧ SapV1.prepare_sap_data ⟨Json.obj [("I_DATE", Json.str "15/03/2024")], []⟩
        ⟨[("I_DATE", Json.obj [])], [], []⟩
      = .ok [("I_DATE", Json.str "15/03/2024")] := ⟨rfl, rfl, rfl⟩

/-! ### Claim C5: collect-all versus fail-fast validation -/

/-- Claim C5, counterexample: with BOTH declared tables `T1` and `T2`
missing from the request, the validator raises naming only `T1`; with only
`T2` missing it raises naming `T2` — so the first error suppressed the
second, refuting the claim that every missing table is enumerated in one
error. -/
theorem claim_C5_counterexample :
    SapV1.validate_table_parameters ⟨Json.obj [], []⟩
        ⟨[], [("T1", ⟨[]⟩), ("T2", ⟨[]⟩)], []⟩
      = .error "Missing required table parameter: T1"
    ∧ SapV1.validate_table_parameters
        ⟨Json.obj [], [("T1", Json.obj [("fields", Json.obj [("F", Json.str "x")])])]⟩
        ⟨[], [("T1", ⟨[]⟩), ("T2", ⟨[]⟩)], []⟩
      = .error "Missing required table parameter: T2" := ⟨rfl, rfl⟩

/-- Claim C5 (amended): when the input scan completes, every missing
required input path is enumerated in ONE `INVALID_INPUT`-class error (a
TypeError raised while resolving a required path propagates instead — a
500, never the enumerating 400); table validation is fail-fast: the first
missing declared table aborts validation with an error naming only that
table, regardless of any further problems. -/
theorem claim_C5_amended :
    (∀ (parameters : Params) (md : Metadata) (ms : List String),
      SapV1.missing_inputs parameters md = .ok ms → ms ≠ [] →
      SapV1.validate_input_parameters parameters md
        = .error ("Missing required input parameters: "
            ++ String.intercalate ", " ms))
    ∧ (∀ (parameters : Params) (md : Metadata) (e : String),
        SapV1.missing_inputs parameters md = .error e →
        SapV1.validate_input_parameters parameters md = .error e)
    ∧ (∀ (parameters : Params) (md : Metadata) (ms : List String) (field : String),
        SapV1.missing_inputs parameters md = .ok ms →
        field ∈ SapV1.extract_required_fields md.input_parameters "" →
        (SapV1.extract_nested_value parameters.input field = .ok none
          ∨ ∃ v, SapV1.extract_nested_value parameters.input field = .ok (some v)
              ∧ falsy v = true) →
        field ∈ ms)
    ∧ (∀ (parameters : Params) (input_meta output_meta : List (String × Json))
        (t₁ : String) (m₁ : TableMeta) (rest : List (String × TableMeta)),
        lookup parameters.tables t₁ = none →
        SapV1.validate_table_parameters parameters
            ⟨input_meta, (t₁, m₁) :: rest, output_meta⟩
          = .error ("Missing required table parameter: " ++ t₁)) := by
  refine ⟨?_, ?_, ?_, ?_⟩
  · intro parameters md ms h hne
    rw [SapV1.validate_input_parameters, h]
    cases ms with
    | nil => exact absurd rfl hne
    | cons a t => simp [Bind.bind, Except.bind]
  · intro parameters md e h
    rw [SapV1.validate_input_parameters, h]
    rfl
  · intro parameters md ms field h hf hbad
    exact collect_missing_mem parameters field hbad _ ms h hf
  · intro parameters input_meta output_meta t₁ m₁ rest h
    unfold SapV1.validate_table_parameters SapV1.validate_table_parameters.go
    rw [h]

/-- Claim C5, witness for the amended statement at concrete inputs. -/
theorem claim_C5_amended_witness :
    SapV1.validate_input_parameters ⟨Json.obj [], []⟩
        ⟨[("A", Json.obj [("required", Json.bool true)])], [], []⟩
      = .error "Missing required input parameters: A"
    ∧ SapV1.validate_table_parameters ⟨Json.obj [], []⟩ ⟨[], [("T1", ⟨[]⟩)], []⟩
      = .error "Missing required table parameter: T1" := by
  constructor
  · have hm : SapV1.missing_inputs ⟨Json.obj [], []⟩
        ⟨[("A", Json.obj [("required", Json.bool true)])], [], []⟩ = .ok ["A"] := by
      simp only [SapV1.missing_inputs, SapV1.extract_required_fields, SapV1.requiredFlag]
      rfl
    have h := claim_C5_amended.1 ⟨Json.obj [], []⟩
      ⟨[("A", Json.obj [("required", Json.bool true)])], [], []⟩ ["A"] hm (by decide)
    exact h
  · exact claim_C5_amended.2.2.2 ⟨Json.obj [], []⟩ [] [] "T1" ⟨[]⟩ [] rfl

/-! ### Claim C6: the sliding-window rate limiter -/

/-- Claim C6: with `max_requests=3, window_seconds=60`, four successive
calls within one second from the same bucket yield allowed
`[true, true, true, false]` with `0 < retry_after ≤ 60` on the fourth;
in general `is_allowed` purges timestamps `≤ now - window` (on an ordered
bucket exactly the stale ones), denies with
`retry_after = max(oldest_remaining + window - now, 1)` when the purged
count reaches `max_requests`, and otherwise appends `now`. -/
theorem claim_C6 :
    (∀ t1 t2 t3 t4 : Int, t1 ≤ t2 → t2 ≤ t3 → t3 ≤ t4 → t4 ≤ t1 + 1 →
      (RateLimiter.is_allowed [] t1 3 60).1 = true
      ∧ (RateLimiter.is_allowed [] t1 3 60).2.2 = [t1]
      ∧ (RateLimiter.is_allowed [t1] t2 3 60).1 = true
      ∧ (RateLimiter.is_allowed [t1] t2 3 60).2.2 = [t1, t2]
      ∧ (RateLimiter.is_allowed [t1, t2] t3 3 60).1 = true
      ∧ (RateLimiter.is_allowed [t1, t2] t3 3 60).2.2 = [t1, t2, t3]
      ∧ (RateLimiter.is_allowed [t1, t2, t3] t4 3 60).1 = false
      ∧ 0 < (RateLimiter.is_allowed [t1, t2, t3] t4 3 60).2.1.retry_after
      ∧ (RateLimiter.is_allowed [t1, t2, t3] t4 3 60).2.1.retry_after ≤ 60)
    ∧ (∀ (requests : List Int) (now : Int) (max_requests : Nat) (window : Int),
        ((RateLimiter.is_allowed requests now max_requests window).1 = false ↔
          max_requests ≤ (RateLimiter.purge_old requests now window).length)
        ∧ (max_requests ≤ (RateLimiter.purge_old requests now window).length →
            (RateLimiter.is_allowed requests now max_requests window).2.1.retry_after
              = max ((RateLimiter.purge_old requests now window).headD now + window - now) 1)
        ∧ ((RateLimiter.purge_old requests now window).length < max_requests →
            (RateLimiter.is_allowed requests now max_requests window).2.2
              = RateLimiter.purge_old requests now window ++ [now]
            ∧ (RateLimiter.is_allowed requests now max_requests window).2.1.remaining
              = max_requests - ((RateLimiter.purge_old requests now window).length + 1)))
    ∧ (∀ (requests : List Int) (now window : Int),
        requests.Pairwise (· ≤ ·) →
        RateLimiter.purge_old requests now window
          = requests.filter fun t => !(decide (t ≤ now - window))) := by
  refine ⟨?_, ?_, ?_⟩
  · intro t1 t2 t3 t4 h12 h23 h34 h41
    have hp1 : ¬(t1 ≤ t2 - 60) := by omega
    have hp2 : ¬(t1 ≤ t3 - 60) := by omega
    have hp3 : ¬(t1 ≤ t4 - 60) := by omega
    refine ⟨?_, ?_, ?_, ?_, ?_, ?_, ?_, ?_, ?_⟩
    all_goals simp [RateLimiter.is_allowed, RateLimiter.purge_old, List.dropWhile,
      hp1, hp2, hp3]
    all_goals omega
  · intro requests now max_requests window
    by_cases h : max_requests ≤ (RateLimiter.purge_old requests now window).length
    · refine ⟨by simp [RateLimiter.is_allowed, h], fun _ => by simp [RateLimiter.is_allowed, h],
        fun hlt => absurd h (by omega)⟩
    · refine ⟨by simp [RateLimiter.is_allowed, h], fun hle => absurd hle h,
        fun _ => ⟨by simp [RateLimiter.is_allowed, h], by simp [RateLimiter.is_allowed, h]⟩⟩
  · intro requests now window hp
    induction requests with
    | nil => rfl
    | cons a rest ih =>
      rw [List.pairwise_cons] at hp
      obtain ⟨ha, hrest⟩ := hp
      rw [RateLimiter.purge_old] at ih ⊢
      by_cases h : a ≤ now - window
      · simpa [List.dropWhile_cons, List.filter_cons, h] using ih hrest
      · have h3 : List.filter (fun t => !decide (t ≤ now - window)) rest = rest :=
          List.filter_eq_self.mpr fun b hb => by
            have hab := ha b hb
            simp
            omega
        simp [List.dropWhile_cons, List.filter_cons, h, h3]
  
/-- Claim C6, witness: four calls at times 0, 0, 0, 1 on a bucket for
`max_requests=3, window_seconds=60`. -/
theorem claim_C6_witness :
    (RateLimiter.is_allowed [] 0 3 60).1 = true
    ∧ (RateLimiter.is_allowed [0] 0 3 60).1 = true
    ∧ (RateLimiter.is_allowed [0, 0] 0 3 60).1 = true
    ∧ (RateLimiter.is_allowed [0, 0, 0] 1 3 60).1 = false
    ∧ 0 < (RateLimiter.is_allowed [0, 0, 0] 1 3 60).2.1.retry_after
    ∧ (RateLimiter.is_allowed [0, 0, 0] 1 3 60).2.1.retry_after ≤ 60 := by
  obtain ⟨a1, _, a2, _, a3, _, a4, r1, r2⟩ :=
    claim_C6.1 0 0 0 1 (by omega) (by omega) (by omega) (by omega)
  exact ⟨a1, a2, a3, a4, r1, r2⟩

/-- Claim C10: a denied check leaves the bucket unchanged except for the
purge of stale entries: the returned bucket is the drop of the stale
prefix (every dropped entry is `≤ now - window`) and `now` is NOT
appended. -/
theorem claim_C10 (requests : List Int) (now : Int) (max_requests : Nat)
    (window : Int)
    (h : (RateLimiter.is_allowed requests now max_requests window).1 = false) :
    (RateLimiter.is_allowed requests now max_requests window).2.2
        = RateLimiter.purge_old requests now window
    ∧ (requests.takeWhile fun t => t ≤ now - window)
        ++ (RateLimiter.is_allowed requests now max_requests window).2.2
        = requests
    ∧ ∀ t ∈ requests.takeWhile fun t => t ≤ now - window,
        t ≤ now - window := by
  by_cases hc : max_requests ≤ (RateLimiter.purge_old requests now window).length
  · refine ⟨by simp [RateLimiter.is_allowed, hc], ?_, ?_⟩
    · rw [show (RateLimiter.is_allowed requests now max_requests window).2.2
          = RateLimiter.purge_old requests now window from by
        simp [RateLimiter.is_allowed, hc]]
      exact List.takeWhile_append_dropWhile ..
    · intro t ht
      simpa using List.mem_takeWhile_imp ht
  · exfalso
    rw [show (RateLimiter.is_allowed requests now max_requests window).1 = true from by
      simp [RateLimiter.is_allowed, hc]] at h
    exact absurd h (by simp)

/-- Claim C10, witness: the denied fourth call on bucket `[0,0,0]`
returns the bucket unchanged. -/
theorem claim_C10_witness :
    (RateLimiter.is_allowed [0, 0, 0] 1 3 60).2.2 = [0, 0, 0] := by
  have h := (claim_C10 [0, 0, 0] 1 3 60 (by decide)).1
  rw [h]
  rfl

/-! ### Claim C7: token subject handling -/

/-- Claim C7, counterexample: a token with valid signature and expiry
whose `sub` claim is the EMPTY STRING decodes successfully —
`verify_client_token` and `verify_any_token` only test `sub is None`, so
the decoded identity carries an empty subject, refuting both halves of
the claim. -/
theorem claim_C7_counterexample :
    DependenciesV1.verify_client_token ⟨some "", some "client"⟩
      = .ok ⟨some "", none⟩
    ∧ DependenciesV1.verify_any_token (fun _ => true) ⟨some "", some "client"⟩
      = .ok ⟨some "", none⟩ := ⟨rfl, rfl⟩

/-- Claim C7 (amended): the token dependencies reject with the
structure-error code only when `sub` is ABSENT; an empty-string subject
passes the structure check (for user-type tokens the external existence
check is applied to the subject, whatever it is). -/
theorem claim_C7_amended :
    (∀ p : DependenciesV1.Payload, p.sub = none →
        DependenciesV1.verify_client_token p = .error .INVALID_CLIENT_TOKEN
        ∧ (∀ ex : String → Bool,
            DependenciesV1.verify_user_token ex p = .error .INVALID_USER_TOKEN)
        ∧ (∀ ex : String → Bool,
            DependenciesV1.verify_any_token ex p = .error .INVALID_TOKEN_STRUCTURE))
    ∧ (∀ (p : DependenciesV1.Payload) (s : String), p.sub = some s →
        p.type.getD "client" ≠ "user" →
        DependenciesV1.verify_client_token p = .ok ⟨some s, none⟩
        ∧ ∀ ex : String → Bool,
            DependenciesV1.verify_any_token ex p = .ok ⟨some s, none⟩)
    ∧ (∀ (p : DependenciesV1.Payload) (s : String) (ex : String → Bool),
        p.sub = some s → p.type.getD "client" = "user" → ex s = true →
        DependenciesV1.verify_user_token ex p = .ok ⟨none, some s⟩
        ∧ DependenciesV1.verify_any_token ex p = .ok ⟨none, some s⟩) := by
  refine ⟨?_, ?_, ?_⟩
  · intro p hsub
    refine ⟨?_, fun ex => ?_, fun ex => ?_⟩ <;>
      simp [DependenciesV1.verify_client_token, DependenciesV1.verify_user_token,
        DependenciesV1.verify_any_token, hsub]
  · intro p s hsub htype
    refine ⟨?_, fun ex => ?_⟩ <;>
      simp [DependenciesV1.verify_client_token, DependenciesV1.verify_any_token,
        hsub, htype]
  · intro p s ex hsub htype hex
    refine ⟨?_, ?_⟩ <;>
      simp [DependenciesV1.verify_user_token, DependenciesV1.verify_any_token,
        hsub, htype, hex]

/-- Claim C7, witness for the amended statement: an empty-string subject
is accepted as a client identity, and an existing user subject as a user
identity. -/
theorem claim_C7_amended_witness :
    DependenciesV1.verify_client_token ⟨some "", some "client"⟩
      = .ok ⟨some "", none⟩
    ∧ DependenciesV1.verify_user_token (fun _ => true) ⟨some "u1", some "user"⟩
      = .ok ⟨none, some "u1"⟩ := by
  refine ⟨(claim_C7_amended.2.1 ⟨some "", some "client"⟩ "" rfl (by decide)).1, ?_⟩
  exact (claim_C7_amended.2.2 ⟨some "u1", some "user"⟩ "u1" (fun _ => true)
    rfl rfl rfl).1

/-! ### Claim C8: the authorization bypass allow-list -/

/-- Claim C8: `is_function_authorized` returns true for every identity
when the function is in the fixed bypass list
`{ZMAST_CUSTOMER, Z_GET_MATERIALS, ZMAST_BOM}`, and otherwise returns
true iff the name is in the identity's authorized-function set. -/
theorem claim_C8 (rows : List (Option String × String)) (function_name : String) :
    (function_name ∈ AuthService.bypass_functions →
      AuthService.is_function_authorized rows function_name = true)
    ∧ (function_name ∉ AuthService.bypass_functions →
      (AuthService.is_function_authorized rows function_name = true ↔
        function_name ∈ AuthService.get_authorized_function_names rows)) := by
  constructor
  · intro h
    simp [AuthService.is_function_authorized, h]
  · intro h
    simp [AuthService.is_function_authorized, h]

/-- Claim C8, witness: `ZMAST_BOM` is authorized for an identity with no
stored functions, and a non-bypass name is authorized exactly by
membership. -/
theorem claim_C8_witness :
    AuthService.is_function_authorized [] "ZMAST_BOM" = true
    ∧ (AuthService.is_function_authorized [(some "F1", "d")] "F1" = true ↔
        "F1" ∈ AuthService.get_authorized_function_names [(some "F1", "d")]) :=
  ⟨(claim_C8 [] "ZMAST_BOM").1 (by decide),
    (claim_C8 [(some "F1", "d")] "F1").2 (by decide)⟩

/-! ### Helper lemmas for the response filters -/

theorem lookup_map_self (g : String → Json) (sk : List String) (k : String)
    (hk : k ∈ sk) :
    lookup (sk.map fun k' => (k', g k')) k = some (g k) := by
  induction sk with
  | nil => cases hk
  | cons k₀ rest ih =>
    by_cases h : k₀ = k
    · subst h
      simp [lookup]
    · rcases List.mem_cons.mp hk with h' | h'
      · exact absurd h'.symm h
      · simpa [lookup, h] using ih h'

theorem map_fst_mk (g : String → Json) (sk : List String) :
    (sk.map fun k => (k, g k)).map Prod.fst = sk := by
  induction sk with
  | nil => rfl
  | cons k rest ih => simp [ih]

theorem projectRow_shape {subkeys : List String} {e r : Json}
    (h : SapV1.projectRow subkeys e = .ok r) :
    ∃ es, r = Json.obj es ∧ es.map Prod.fst = subkeys := by
  have hgen : ∀ (h' : (if subkeys.isEmpty then Except.ok (Json.obj [])
        else (Except.error "AttributeError: get on non-dict row" :
          Except String Json)) = Except.ok r),
      ∃ es, r = Json.obj es ∧ es.map Prod.fst = subkeys := by
    intro h'
    split at h'
    · next he =>
      injection h' with hh
      exact ⟨[], hh.symm, by simp [List.isEmpty_iff.mp he]⟩
    · cases h'
  cases e with
  | obj es =>
    rw [SapV1.projectRow] at h
    injection h with hh
    exact ⟨_, hh.symm, map_fst_mk _ _⟩
  | null => exact hgen h
  | str s => exact hgen h
  | num n => exact hgen h
  | bool b => exact hgen h
  | arr l => exact hgen h

theorem projectRow_fixed {subkeys : List String} {e r : Json}
    (h : SapV1.projectRow subkeys e = .ok r) :
    SapV1.projectRow subkeys r = .ok r := by
  have hgen : ∀ (h' : (if subkeys.isEmpty then Except.ok (Json.obj [])
        else (Except.error "AttributeError: get on non-dict row" :
          Except String Json)) = Except.ok r),
      SapV1.projectRow subkeys r = .ok r := by
    intro h'
    split at h'
    · next he =>
      injection h' with hh
      subst hh
      rw [List.isEmpty_iff.mp he]
      rfl
    · cases h'
  cases e with
  | obj es =>
    rw [SapV1.projectRow] at h
    injection h with hh
    subst hh
    rw [SapV1.projectRow]
    congr 2
    refine List.map_congr_left fun k hk => ?_
    rw [lookup_map_self (fun k' => (lookup es k').getD (Json.str "")) subkeys k hk]
    rfl
  | null => exact hgen h
  | str s => exact hgen h
  | num n => exact hgen h
  | bool b => exact hgen h
  | arr l => exact hgen h

theorem projectRows_shape {subkeys : List String} {l rows : List Json}
    (h : SapV1.projectRows subkeys l = .ok rows) :
    ∀ r ∈ rows, ∃ es, r = Json.obj es ∧ es.map Prod.fst = subkeys := by
  induction l generalizing rows with
  | nil =>
    injection h with h
    subst h
    intro r hr
    cases hr
  | cons e rest ih =>
    rw [SapV1.projectRows] at h
    rw [exceptBind_eq_ok] at h
    obtain ⟨r₀, hr₀, h2⟩ := h
    rw [exceptBind_eq_ok] at h2
    obtain ⟨rs, hrs, h3⟩ := h2
    injection h3 with h3
    subst h3
    intro r hr
    rcases List.mem_cons.mp hr with rfl | hmem
    · exact projectRow_shape hr₀
    · exact ih hrs r hmem

theorem projectRows_fixed {subkeys : List String} {l rows : List Json}
    (h : SapV1.projectRows subkeys l = .ok rows) :
    SapV1.projectRows subkeys rows = .ok rows := by
  induction l generalizing rows with
  | nil =>
    injection h with h
    subst h
    rfl
  | cons e rest ih =>
    rw [SapV1.projectRows] at h
    rw [exceptBind_eq_ok] at h
    obtain ⟨r₀, hr₀, h2⟩ := h
    rw [exceptBind_eq_ok] at h2
    obtain ⟨rs, hrs, h3⟩ := h2
    injection h3 with h3
    subst h3
    rw [SapV1.projectRows, projectRow_fixed hr₀, ih hrs]
    rfl

theorem filterValue_of_ne_arr {value rawv : Json}
    (h : ∀ sub l, value = Json.obj sub → rawv = Json.arr l → False) :
    SapV1.filterValue value rawv = .ok rawv := by
  cases value <;> cases rawv <;> first
    | rfl
    | exact (h _ _ rfl rfl).elim

theorem filterValue_fixed {value rawv w : Json}
    (h : SapV1.filterValue value rawv = .ok w) :
    SapV1.filterValue value w = .ok w := by
  by_cases harr : ∃ sub l, value = Json.obj sub ∧ rawv = Json.arr l
  · obtain ⟨sub, l, rfl, rfl⟩ := harr
    rw [SapV1.filterValue] at h
    rw [exceptBind_eq_ok] at h
    obtain ⟨rows, hrows, hw⟩ := h
    injection hw with hw
    subst hw
    rw [SapV1.filterValue, projectRows_fixed hrows]
    rfl
  · have hne : ∀ sub l, value = Json.obj sub → rawv = Json.arr l → False :=
      fun sub l hv hr => harr ⟨sub, l, hv, hr⟩
    rw [filterValue_of_ne_arr hne] at h
    injection h with h
    subst h
    exact filterValue_of_ne_arr fun sub l hv hr => harr ⟨sub, l, hv, hr⟩

theorem filter_congr_lookup {raw1 raw2 S : List (String × Json)}
    (h : ∀ kv ∈ S, lookup raw1 kv.1 = lookup raw2 kv.1) :
    SapV1.filter_sap_response raw1 S = SapV1.filter_sap_response raw2 S := by
  induction S with
  | nil => rfl
  | cons kv rest ih =>
    obtain ⟨key, value⟩ := kv
    have hk := h (key, value) (List.mem_cons_self ..)
    have hrest := ih fun kv hkv => h kv (List.mem_cons_of_mem _ hkv)
    rw [SapV1.filter_sap_response, SapV1.filter_sap_response, hk, hrest]

theorem filter_keys {raw S F : List (String × Json)}
    (h : SapV1.filter_sap_response raw S = .ok F) :
    F.map Prod.fst = (S.map Prod.fst).filter fun k => (lookup raw k).isSome := by
  induction S generalizing F with
  | nil =>
    injection h with h
    subst h
    rfl
  | cons kv rest ih =>
    obtain ⟨key, value⟩ := kv
    rw [SapV1.filter_sap_response] at h
    cases hlk : lookup raw key with
    | none =>
      rw [hlk] at h
      simp [List.filter_cons, hlk, ih h]
    | some rawv =>
      rw [hlk] at h
      rw [exceptBind_eq_ok] at h
      obtain ⟨v, hv, h2⟩ := h
      rw [exceptBind_eq_ok] at h2
      obtain ⟨r, hr, h3⟩ := h2
      injection h3 with h3
      subst h3
      simp [List.filter_cons, hlk, ih hr]

theorem filter_lookup_mem {raw S F : List (String × Json)}
    (hN : (S.map Prod.fst).Nodup)
    (h : SapV1.filter_sap_response raw S = .ok F) {key : String} {value rawv : Json}
    (hmem : (key, value) ∈ S) (hraw : lookup raw key = some rawv) :
    ∃ v, SapV1.filterValue value rawv = .ok v ∧ lookup F key = some v := by
  induction S generalizing F with
  | nil => cases hmem
  | cons kv rest ih =>
    obtain ⟨key₀, value₀⟩ := kv
    rw [List.map_cons, List.nodup_cons] at hN
    obtain ⟨hk₀, hNrest⟩ := hN
    rw [SapV1.filter_sap_response] at h
    rcases List.mem_cons.mp hmem with heq | hmem'
    · injection heq with heq1 heq2
      subst heq1
      subst heq2
      rw [hraw] at h
      rw [exceptBind_eq_ok] at h
      obtain ⟨v, hv, h2⟩ := h
      rw [exceptBind_eq_ok] at h2
      obtain ⟨r, hr, h3⟩ := h2
      injection h3 with h3
      subst h3
      exact ⟨v, hv, lookup_cons_self ..⟩
    · have hmemf : (key, value).1 ∈ rest.map Prod.fst :=
        List.mem_map_of_mem Prod.fst hmem'
      have hkk : key ≠ key₀ := by
        intro hh
        apply hk₀
        rw [← hh]
        exact hmemf
      cases hlk : lookup raw key₀ with
      | none =>
        rw [hlk] at h
        exact ih hNrest h hmem'
      | some rawv₀ =>
        rw [hlk] at h
        rw [exceptBind_eq_ok] at h
        obtain ⟨v₀, hv₀, h2⟩ := h
        rw [exceptBind_eq_ok] at h2
        obtain ⟨r, hr, h3⟩ := h2
        injection h3 with h3
        subst h3
        obtain ⟨v, hv, hlkF⟩ := ih hNrest hr hmem'
        exact ⟨v, hv, by rw [lookup_cons_of_ne _ _ (Ne.symm hkk)]; exact hlkF⟩

theorem routes_filterValue_congr {raw1 raw2 : List (String × Json)} {key : String}
    {value : Json} (h : lookup raw1 key = lookup raw2 key) :
    Routes.filterValue raw1 key value = Routes.filterValue raw2 key value := by
  simp only [Routes.filterValue, h]

theorem routes_filter_congr {raw1 raw2 S : List (String × Json)}
    (h : ∀ kv ∈ S, lookup raw1 kv.1 = lookup raw2 kv.1) :
    Routes.filter_sap_response raw1 S = Routes.filter_sap_response raw2 S := by
  induction S with
  | nil => rfl
  | cons kv rest ih =>
    obtain ⟨key, value⟩ := kv
    have hk : Routes.filterValue raw1 key value = Routes.filterValue raw2 key value :=
      routes_filterValue_congr (h (key, value) (List.mem_cons_self ..))
    have hrest := ih fun kv hkv => h kv (List.mem_cons_of_mem _ hkv)
    rw [Routes.filter_sap_response, Routes.filter_sap_response, hk, hrest]

theorem routes_filter_keys {raw S F : List (String × Json)}
    (h : Routes.filter_sap_response raw S = .ok F) :
    F.map Prod.fst = S.map Prod.fst := by
  induction S generalizing F with
  | nil =>
    injection h with h
    subst h
    rfl
  | cons kv rest ih =>
    obtain ⟨key, value⟩ := kv
    rw [Routes.filter_sap_response] at h
    rw [exceptBind_eq_ok] at h
    obtain ⟨v, hv, h2⟩ := h
    rw [exceptBind_eq_ok] at h2
    obtain ⟨r, hr, h3⟩ := h2
    injection h3 with h3
    subst h3
    simp [ih hr]

theorem routes_filterValueCore_none (value : Json) :
    Routes.filterValueCore value none = .ok (.str "") := by
  rfl

theorem routes_filterValueCore_default {value w : Json}
    (h : ∀ sub l, value = Json.obj sub → w = Json.arr l → False) :
    Routes.filterValueCore value (some w) = .ok w := by
  cases w <;> first
    | rfl
    | (cases value <;> first | rfl | exact (h _ _ rfl rfl).elim)

theorem routes_filterValueCore_fixed {value v : Json} {rawv? : Option Json}
    (hv : Routes.filterValueCore value rawv? = .ok v) :
    Routes.filterValueCore value (some v) = .ok v := by
  by_cases harr : ∃ sub l, value = Json.obj sub ∧ rawv? = some (Json.arr l)
  · obtain ⟨sub, l, rfl, rfl⟩ := harr
    have hv' : (SapV1.projectRows (sub.map Prod.fst) l >>= fun rows =>
        (Except.ok (Json.arr rows) : Except String Json)) = .ok v := hv
    rw [exceptBind_eq_ok] at hv'
    obtain ⟨rows, hrows, hw⟩ := hv'
    injection hw with hw
    subst hw
    have h2 := projectRows_fixed hrows
    show (SapV1.projectRows (sub.map Prod.fst) rows >>= fun rows =>
        (Except.ok (Json.arr rows) : Except String Json)) = .ok (Json.arr rows)
    rw [h2]
    rfl
  · cases rawv? with
    | none =>
      rw [routes_filterValueCore_none] at hv
      injection hv with hv
      subst hv
      exact routes_filterValueCore_default fun sub l _ hr => Json.noConfusion hr
    | some w =>
      have hne : ∀ sub l, value = Json.obj sub → w = Json.arr l → False :=
        fun sub l h1 h2 => harr ⟨sub, l, h1, by rw [h2]⟩
      rw [routes_filterValueCore_default hne] at hv
      injection hv with hv
      subst hv
      exact routes_filterValueCore_default hne

/-! ### Claim C2: the response filter as an allow-list projection -/

/-- Claim C2, counterexample: in the v1 filter a declared key absent from
the raw response is OMITTED from the result, not defaulted to the empty
string — with raw response `{}` and one declared key the result is `{}`,
so its key set differs from the declared key set. -/
theorem claim_C2_counterexample :
    SapV1.filter_sap_response [] [("RETURN", Json.null)] = .ok []
    ∧ ([] : List (String × Json)).map Prod.fst
        ≠ [("RETURN", Json.null)].map Prod.fst :=
  ⟨rfl, by decide⟩

/-- Claim C2 (amended): the v1 filter returns exactly the declared output
keys PRESENT in the raw response (absent declared keys are omitted, not
defaulted); a present declared key with a dict schema value and a list raw
value yields a row list containing only the declared sub-fields; keys of
the raw response not declared in the schema are dropped.  The legacy
routes filter is the one returning exactly all declared keys. -/
theorem claim_C2_amended (raw S F : List (String × Json))
    (hN : (S.map Prod.fst).Nodup)
    (h : SapV1.filter_sap_response raw S = .ok F) :
    F.map Prod.fst = (S.map Prod.fst).filter (fun k => (lookup raw k).isSome)
    ∧ (∀ key sub l, (key, Json.obj sub) ∈ S →
        lookup raw key = some (Json.arr l) →
        ∃ rows, SapV1.projectRows (sub.map Prod.fst) l = .ok rows
          ∧ lookup F key = some (Json.arr rows)
          ∧ ∀ r ∈ rows, ∃ es, r = Json.obj es ∧ es.map Prod.fst = sub.map Prod.fst)
    ∧ (∀ key, key ∉ S.map Prod.fst → lookup F key = none)
    ∧ (∀ key, lookup raw key = none → lookup F key = none)
    ∧ (∀ raw2 S2 F2 : List (String × Json),
        Routes.filter_sap_response raw2 S2 = .ok F2 →
        F2.map Prod.fst = S2.map Prod.fst) := by
  refine ⟨filter_keys h, ?_, ?_, ?_, fun raw2 S2 F2 h2 => routes_filter_keys h2⟩
  · intro key sub l hmem hraw
    obtain ⟨v, hv, hlkF⟩ := filter_lookup_mem hN h hmem hraw
    rw [SapV1.filterValue] at hv
    rw [exceptBind_eq_ok] at hv
    obtain ⟨rows, hrows, hw⟩ := hv
    injection hw with hw
    subst hw
    exact ⟨rows, hrows, hlkF, projectRows_shape hrows⟩
  · intro key hkey
    rw [lookup_eq_none_iff, filter_keys h]
    intro hmem
    exact hkey (List.mem_of_mem_filter hmem)
  · intro key hraw
    rw [lookup_eq_none_iff, filter_keys h]
    intro hmem
    have hs := (List.mem_filter.mp hmem).2
    rw [hraw] at hs
    simp at hs

/-- Claim C2, witness for the amended statement: one declared table key
with a junk sub-field and one undeclared raw key. -/
theorem claim_C2_amended_witness :
    lookup [("RETURN", Json.arr [Json.obj [("TYPE", Json.str "S")]])] "EXTRA" = none
    ∧ [("RETURN", Json.arr [Json.obj [("TYPE", Json.str "S")]])].map Prod.fst
        = ["RETURN"] := by
  have h := claim_C2_amended
    [("RETURN", Json.arr [Json.obj [("TYPE", Json.str "S"), ("JUNK", Json.str "j")]]),
      ("EXTRA", Json.str "x")]
    [("RETURN", Json.obj [("TYPE", Json.null)])]
    [("RETURN", Json.arr [Json.obj [("TYPE", Json.str "S")]])]
    (by decide) rfl
  refine ⟨h.2.2.1 "EXTRA" (by decide), ?_⟩
  rw [h.1]
  rfl

/-! ### Claim C9: idempotence of the response filters -/

/-- Claim C9: both response filters are idempotent — re-filtering an
already filtered response with the same output schema returns it
unchanged (schemas are dicts, so their key lists are duplicate-free). -/
theorem claim_C9 :
    (∀ raw S F : List (String × Json), (S.map Prod.fst).Nodup →
      SapV1.filter_sap_response raw S = .ok F →
      SapV1.filter_sap_response F S = .ok F)
    ∧ (∀ raw S F : List (String × Json), (S.map Prod.fst).Nodup →
      Routes.filter_sap_response raw S = .ok F →
      Routes.filter_sap_response F S = .ok F) := by
  constructor
  · intro raw S
    induction S generalizing raw with
    | nil =>
      intro F _ h
      injection h with h
      subst h
      rfl
    | cons kv rest ih =>
      intro F hN h
      obtain ⟨key, value⟩ := kv
      rw [List.map_cons, List.nodup_cons] at hN
      obtain ⟨hk, hNrest⟩ := hN
      rw [SapV1.filter_sap_response] at h
      cases hlk : lookup raw key with
      | none =>
        rw [hlk] at h
        have hkeysF : lookup F key = none := by
          rw [lookup_eq_none_iff, filter_keys h]
          intro hmem
          exact hk (List.mem_of_mem_filter hmem)
        rw [SapV1.filter_sap_response, hkeysF]
        exact ih raw F hNrest h
      | some rawv =>
        rw [hlk] at h
        rw [exceptBind_eq_ok] at h
        obtain ⟨v, hv, h2⟩ := h
        rw [exceptBind_eq_ok] at h2
        obtain ⟨r, hr, h3⟩ := h2
        injection h3 with h3
        subst h3
        have hlkF : lookup ((key, v) :: r) key = some v := lookup_cons_self ..
        have hcong : SapV1.filter_sap_response ((key, v) :: r) rest
            = SapV1.filter_sap_response r rest :=
          filter_congr_lookup fun kv hkv =>
            lookup_cons_of_ne _ _ fun he => by
              have hm := List.mem_map_of_mem Prod.fst hkv
              exact hk (by rw [he]; exact hm)
        rw [SapV1.filter_sap_response, hlkF]
        show (SapV1.filterValue value v >>= fun v' =>
            SapV1.filter_sap_response ((key, v) :: r) rest >>= fun r' =>
              Except.ok ((key, v') :: r')) = Except.ok ((key, v) :: r)
        rw [filterValue_fixed hv, hcong, ih raw r hNrest hr]
        rfl
  · intro raw S
    induction S generalizing raw with
    | nil =>
      intro F _ h
      injection h with h
      subst h
      rfl
    | cons kv rest ih =>
      intro F hN h
      obtain ⟨key, value⟩ := kv
      rw [List.map_cons, List.nodup_cons] at hN
      obtain ⟨hk, hNrest⟩ := hN
      rw [Routes.filter_sap_response] at h
      rw [exceptBind_eq_ok] at h
      obtain ⟨v, hv, h2⟩ := h
      rw [exceptBind_eq_ok] at h2
      obtain ⟨r, hr, h3⟩ := h2
      injection h3 with h3
      subst h3
      have hlkF : lookup ((key, v) :: r) key = some v := lookup_cons_self ..
      have hfv : Routes.filterValue ((key, v) :: r) key value = .ok v := by
        rw [Routes.filterValue, hlkF]
        exact routes_filterValueCore_fixed hv
      have hcong : Routes.filter_sap_response ((key, v) :: r) rest
          = Routes.filter_sap_response r rest :=
        routes_filter_congr fun kv hkv =>
          lookup_cons_of_ne _ _ fun he => by
            have hm := List.mem_map_of_mem Prod.fst hkv
            exact hk (by rw [he]; exact hm)
      rw [Routes.filter_sap_response, hfv, hcong, ih raw r hNrest hr]
      rfl

/-- Claim C9, witness: re-filtering concrete filtered outputs of each
filter returns them unchanged. -/
theorem claim_C9_witness :
    SapV1.filter_sap_response [("RETURN", Json.arr [Json.obj [("TYPE", Json.str "S")]])]
        [("RETURN", Json.obj [("TYPE", Json.null)])]
      = .ok [("RETURN", Json.arr [Json.obj [("TYPE", Json.str "S")]])]
    ∧ Routes.filter_sap_response [("A", Json.str "x"), ("B", Json.str "")]
        [("A", Json.null), ("B", Json.null)]
      = .ok [("A", Json.str "x"), ("B", Json.str "")] := by
  constructor
  · exact claim_C9.1
      [("RETURN", Json.arr [Json.obj [("TYPE", Json.str "S"), ("JUNK", Json.str "j")]]),
        ("EXTRA", Json.str "x")]
      [("RETURN", Json.obj [("TYPE", Json.null)])]
      [("RETURN", Json.arr [Json.obj [("TYPE", Json.str "S")]])]
      (by decide) rfl
  · exact claim_C9.2 [("A", Json.str "x")] [("A", Json.null), ("B", Json.null)]
      [("A", Json.str "x"), ("B", Json.str "")] (by decide) rfl
